import Mathlib

/-
Verification of the RSI trading bot (src/bot.py) against its specification.

The bot is a single linear script: a polling loop that computes an RSI
reading from fetched price history, detects threshold crossings against a
persisted `is_buying` flag, and executes market orders through the exchange
client.  External collaborators (the exchange API, the indicator library)
are modelled as environment inputs; Python floats are modelled as ℚ, with
`Option ℚ` for a possibly-undefined (NaN) reading, since a comparison
against NaN is false in Python exactly as a comparison against `none`
is made false in the model below.
-/

namespace RsiBot

/- ------------------------------------------------------------------
   Configuration constants (src/bot.py lines 49-58).
   ------------------------------------------------------------------ -/

/-- The traded pair, `asset = "BTCUSDT"` in the source. -/
def asset : String := "BTCUSDT"

/-- RSI entry threshold, `entry = 38` in the source. -/
def entry : ℚ := 38

/-- RSI exit threshold, `exit = 78` in the source. -/
def exit : ℚ := 78

/-- Order quantity used by the main loop, `0.001` in the source. -/
def tradeQty : ℚ := 1 / 1000

/- ------------------------------------------------------------------
   Data model.
   ------------------------------------------------------------------ -/

/-- Trade side, i.e. the `side` strings `"buy"` / `"sell"` the main loop
passes to `do_trade`. -/
inductive Side where
  | buy
  | sell
deriving DecidableEq, Repr

/-- One element of an order's `fills` list: `{"price": .., "qty": ..}`. -/
structure Fill where
  price : ℚ
  qty : ℚ
deriving DecidableEq, Repr

/-- The order record returned by the exchange: the fields of the response
dictionary that `do_trade` reads (`orderId`, `status`, `fills`). -/
structure Order where
  orderId : Nat
  status : String
  fills : List Fill
deriving DecidableEq, Repr

/-- The persisted account record: `{"is_buying": bool, "assets": {..}}`
(src/bot.py `create_account`).  `assets` is present in the record but never
populated by any code path; its values are modelled as natural numbers. -/
structure Account where
  is_buying : Bool
  assets : List (String × Nat)
deriving DecidableEq, Repr

/-- The account `create_account` writes: `{"is_buying": True, "assets": {}}`. -/
def initialAccount : Account := { is_buying := true, assets := [] }

/- ------------------------------------------------------------------
   Observable events emitted by the bot (API calls, sleeps, log writes,
   file writes), used to state trace properties of `do_trade` and of a
   main-loop iteration.
   ------------------------------------------------------------------ -/

/-- Observable side effects of the bot, in program order. -/
inductive Ev where
  /-- `client.order_market_buy(symbol=.., quantity=..)` -/
  | submitBuy (symbol : String) (quantity : ℚ)
  /-- `client.order_market_sell(symbol=.., quantity=..)` -/
  | submitSell (symbol : String) (quantity : ℚ)
  /-- `client.get_order(symbol=.., orderId=..)` -/
  | getOrder (symbol : String) (orderId : Nat)
  /-- `time.sleep(secs)` -/
  | sleep (secs : Nat)
  /-- a line appended to the activity log by `log(msg)` -/
  | logLine (msg : String)
  /-- the activity-log line `f"{side} {amount} {sym} for {price}"`
  written by `trade_log` -/
  | logTrade (side : String) (amount : ℚ) (sym : String) (price : ℚ)
  /-- the CSV row `f"{sym},{side},{amount},{price}"` appended to the
  per-day trade log by `trade_log` -/
  | tradeCsv (sym : String) (side : String) (amount : ℚ) (price : ℚ)
  /-- an overwrite of the account file with the given content -/
  | writeAccount (content : String)
deriving DecidableEq, Repr

/-- Whether an event is a market-order submission. -/
def isSubmit : Ev → Bool
  | Ev.submitBuy _ _ => true
  | Ev.submitSell _ _ => true
  | _ => false

/-- Whether an event is an account-file write. -/
def isWrite : Ev → Bool
  | Ev.writeAccount _ => true
  | _ => false

/-- Whether an event is a trade-log CSV row. -/
def isCsv : Ev → Bool
  | Ev.tradeCsv _ _ _ _ => true
  | _ => false

/-- The account-file writes among a list of events. -/
def writes (evs : List Ev) : List Ev := evs.filter isWrite

/-- The order submissions among a list of events. -/
def submits (evs : List Ev) : List Ev := evs.filter isSubmit

/-- The trade-log CSV rows among a list of events. -/
def csvRows (evs : List Ev) : List Ev := evs.filter isCsv

/- ------------------------------------------------------------------
   Signal evaluator (src/bot.py lines 248-254).

   The main loop's guards are
     `if account["is_buying"]: if rsi < entry and old_rsi > entry: buy`
     `else:                    if rsi > exit  and old_rsi < exit:  sell`
   A reading is `Option ℚ`; `none` models NaN, and any Python comparison
   involving NaN is false.
   ------------------------------------------------------------------ -/

/-- Python `a < t` where `a` may be NaN: false when `a` is undefined. -/
def rsiLt (a : Option ℚ) (t : ℚ) : Bool :=
  match a with
  | none => false
  | some x => decide (x < t)

/-- Python `a > t` where `a` may be NaN: false when `a` is undefined. -/
def rsiGt (a : Option ℚ) (t : ℚ) : Bool :=
  match a with
  | none => false
  | some x => decide (t < x)

/-- The signal decision of one main-loop iteration (src/bot.py 248-254):
in seeking-entry state (`is_buying = true`) a BUY fires when
`rsi < entry and old_rsi > entry`; in seeking-exit state a SELL fires when
`rsi > exit and old_rsi < exit`. -/
def signal (is_buying : Bool) (rsi old_rsi : Option ℚ) : Option Side :=
  if is_buying then
    if rsiLt rsi entry && rsiGt old_rsi entry then some Side.buy else none
  else
    if rsiGt rsi exit && rsiLt old_rsi exit then some Side.sell else none

/- ------------------------------------------------------------------
   Helper lemmas about the signal evaluator.
   ------------------------------------------------------------------ -/

lemma rsiLt_iff (a : Option ℚ) (t : ℚ) :
    rsiLt a t = true ↔ ∃ x, a = some x ∧ x < t := by
  cases a <;> simp [rsiLt]

lemma rsiGt_iff (a : Option ℚ) (t : ℚ) :
    rsiGt a t = true ↔ ∃ x, a = some x ∧ t < x := by
  cases a <;> simp [rsiGt]

lemma signal_true_eq_buy (r o : Option ℚ) :
    signal true r o = some Side.buy ↔
      rsiLt r entry = true ∧ rsiGt o entry = true := by
  unfold signal
  cases h : (rsiLt r entry && rsiGt o entry) <;>
    simp_all [Bool.and_eq_true]

lemma signal_false_eq_sell (r o : Option ℚ) :
    signal false r o = some Side.sell ↔
      rsiGt r exit = true ∧ rsiLt o exit = true := by
  unfold signal
  cases h : (rsiGt r exit && rsiLt o exit) <;>
    simp_all [Bool.and_eq_true]

lemma signal_true_cases (r o : Option ℚ) :
    signal true r o = none ∨ signal true r o = some Side.buy := by
  unfold signal
  cases h : (rsiLt r entry && rsiGt o entry) <;> simp

lemma signal_false_cases (r o : Option ℚ) :
    signal false r o = none ∨ signal false r o = some Side.sell := by
  unfold signal
  cases h : (rsiGt r exit && rsiLt o exit) <;> simp

lemma signal_none_left (b : Bool) (o : Option ℚ) :
    signal b none o = none := by
  cases b <;> simp [signal, rsiLt, rsiGt]

lemma signal_none_right (b : Bool) (r : Option ℚ) :
    signal b r none = none := by
  cases b <;> simp [signal, rsiLt, rsiGt, Bool.and_comm]

/- ------------------------------------------------------------------
   Claims C1 and C2: the crossing conditions.
   ------------------------------------------------------------------ -/

/-- Claim C1, counterexample.  The claim states that in seeking-entry
state a BUY fires iff `current < entry AND previous >= entry`.  At
`current = 37`, `previous = 38` the claimed condition holds
(`37 < 38` and `38 ≥ 38`), yet the code's guard `old_rsi > entry` is
strict, so no signal fires. -/
theorem C1_counterexample :
    (37 : ℚ) < entry ∧ entry ≤ (38 : ℚ) ∧
      signal true (some 37) (some 38) = none := by
  refine ⟨by norm_num [entry], by norm_num [entry], by decide⟩

/-- Claim C1, amended: in seeking-entry state (`is_buying = true`) a BUY
signal fires iff `current_rsi < entry` and `previous_rsi > entry`
(strictly); no other signal can fire in seeking-entry state, and a BUY
never fires in seeking-exit state. -/
theorem C1_buy_crossing (r o : Option ℚ) :
    (signal true r o = some Side.buy ↔
       ∃ x y, r = some x ∧ o = some y ∧ x < entry ∧ entry < y)
    ∧ (signal true r o = none ∨ signal true r o = some Side.buy)
    ∧ signal false r o ≠ some Side.buy := by
  refine ⟨?_, signal_true_cases r o, ?_⟩
  · rw [signal_true_eq_buy, rsiLt_iff, rsiGt_iff]
    constructor
    · rintro ⟨⟨x, hx, hxe⟩, ⟨y, hy, hye⟩⟩
      exact ⟨x, y, hx, hy, hxe, hye⟩
    · rintro ⟨x, y, hx, hy, hxe, hye⟩
      exact ⟨⟨x, hx, hxe⟩, ⟨y, hy, hye⟩⟩
  · rcases signal_false_cases r o with h | h <;> simp [h]

/-- Claim C2, counterexample.  The claim states that in seeking-exit
state a SELL fires iff `current > exit AND previous <= exit`.  At
`current = 79`, `previous = 78` the claimed condition holds
(`79 > 78` and `78 ≤ 78`), yet the code's guard `old_rsi < exit` is
strict, so no signal fires. -/
theorem C2_counterexample :
    exit < (79 : ℚ) ∧ (78 : ℚ) ≤ exit ∧
      signal false (some 79) (some 78) = none := by
  refine ⟨by norm_num [exit], by norm_num [exit], by decide⟩

/-- Claim C2, amended: in seeking-exit state (`is_buying = false`) a SELL
signal fires iff `current_rsi > exit` and `previous_rsi < exit`
(strictly); no other signal can fire in seeking-exit state, and a SELL
never fires in seeking-entry state. -/
theorem C2_sell_crossing (r o : Option ℚ) :
    (signal false r o = some Side.sell ↔
       ∃ x y, r = some x ∧ o = some y ∧ exit < x ∧ y < exit)
    ∧ (signal false r o = none ∨ signal false r o = some Side.sell)
    ∧ signal true r o ≠ some Side.sell := by
  refine ⟨?_, signal_false_cases r o, ?_⟩
  · rw [signal_false_eq_sell, rsiGt_iff, rsiLt_iff]
    constructor
    · rintro ⟨⟨x, hx, hxe⟩, ⟨y, hy, hye⟩⟩
      exact ⟨x, y, hx, hy, hxe, hye⟩
    · rintro ⟨x, y, hx, hy, hxe, hye⟩
      exact ⟨⟨x, hx, hxe⟩, ⟨y, hy, hye⟩⟩
  · rcases signal_true_cases r o with h | h <;> simp [h]

/-- Witness for `C1_buy_crossing`: at `current = 37`, `previous = 39` the
amended condition holds and a BUY fires. -/
theorem C1_buy_crossing_witness :
    signal true (some 37) (some 39) = some Side.buy :=
  (C1_buy_crossing (some 37) (some 39)).1.mpr
    ⟨37, 39, rfl, rfl, by norm_num [entry], by norm_num [entry]⟩

/-- Witness for `C2_sell_crossing`: at `current = 79`, `previous = 77` the
amended condition holds and a SELL fires. -/
theorem C2_sell_crossing_witness :
    signal false (some 79) (some 77) = some Side.sell :=
  (C2_sell_crossing (some 79) (some 77)).1.mpr
    ⟨79, 77, rfl, rfl, by norm_num [exit], by norm_num [exit]⟩

/- ------------------------------------------------------------------
   Account Store (src/bot.py `create_account`, `do_trade` lines 227-228,
   main loop lines 237-241).

   The program writes the account with `json.dumps(account)` and reads it
   back with `json.load(f)` followed by key access.  `serializeAccount`
   reproduces `json.dumps` on this record shape (default separators
   `", "` and `": "`, insertion key order `is_buying`, `assets`);
   `parseAccount` models `json.load` plus the two key accesses, restricted
   to this record schema, tolerating JSON whitespace between tokens and
   returning `none` where the Python code would raise
   (`JSONDecodeError` / `KeyError`).
   ------------------------------------------------------------------ -/

/-- `json.dumps` of an `assets` mapping with natural-number values. -/
def serializeAssets (l : List (String × Nat)) : String :=
  "\x7b" ++
    String.intercalate ", "
      (l.map (fun kv => "\"" ++ kv.1 ++ "\": " ++ toString kv.2)) ++
    "\x7d"

/-- `json.dumps(account)` as written by `create_account` and `do_trade`:
for the initial account this is the text
`\x7b"is_buying": true, "assets": \x7b\x7d\x7d`. -/
def serializeAccount (a : Account) : String :=
  "\x7b\"is_buying\": " ++ (if a.is_buying then "true" else "false") ++
    ", \"assets\": " ++ serializeAssets a.assets ++ "\x7d"

/-- JSON whitespace. -/
def isWs (c : Char) : Bool :=
  c = ' ' || c = '\n' || c = '\t' || c = '\r'

/-- Drop leading JSON whitespace. -/
def skipWs : List Char → List Char
  | [] => []
  | c :: cs => if isWs c then skipWs cs else c :: cs

/-- Consume one expected character. -/
def expectChar (c : Char) : List Char → Option (List Char)
  | [] => none
  | d :: cs => if d = c then some cs else none

/-- Consume an expected literal word (e.g. `true`). -/
def dropLit : List Char → List Char → Option (List Char)
  | [], cs => some cs
  | _ :: _, [] => none
  | l :: ls, c :: cs => if c = l then dropLit ls cs else none

/-- Consume a string body up to the closing quote (the program's keys
contain no escapes). -/
def takeStrBody : List Char → Option (List Char × List Char)
  | [] => none
  | c :: cs =>
    if c = '"' then some ([], cs)
    else (takeStrBody cs).map (fun p => (c :: p.1, p.2))

/-- Consume a JSON `true` or `false`. -/
def parseBoolLit (cs : List Char) : Option (Bool × List Char) :=
  match dropLit "true".toList cs with
  | some rest => some (true, rest)
  | none =>
    match dropLit "false".toList cs with
    | some rest => some (false, rest)
    | none => none

/-- Split off a leading run of decimal digits. -/
def takeDigits : List Char → List Char × List Char
  | [] => ([], [])
  | c :: cs =>
    if c.isDigit then
      let p := takeDigits cs
      (c :: p.1, p.2)
    else ([], c :: cs)

/-- Value of a digit run. -/
def digitsToNat (ds : List Char) : Nat :=
  ds.foldl (fun n c => 10 * n + (c.toNat - 48)) 0

/-- Parse the members of a non-empty `assets` object, positioned at the
first key; fuel bounds the recursion. -/
def parseAssetsBody : Nat → List Char → Option (List (String × Nat) × List Char)
  | 0, _ => none
  | fuel + 1, cs =>
    match expectChar '"' cs with
    | none => none
    | some cs =>
      match takeStrBody cs with
      | none => none
      | some (key, cs) =>
        match expectChar ':' (skipWs cs) with
        | none => none
        | some cs =>
          let cs := skipWs cs
          let p := takeDigits cs
          if p.1.isEmpty then none
          else
            let v := digitsToNat p.1
            match skipWs p.2 with
            | ',' :: cs =>
              (parseAssetsBody fuel (skipWs cs)).map
                (fun q => ((String.mk key, v) :: q.1, q.2))
            | '\x7d' :: cs => some ([(String.mk key, v)], cs)
            | _ => none

/-- Parse an `assets` object. -/
def parseAssets (cs : List Char) : Option (List (String × Nat) × List Char) :=
  match expectChar '\x7b' (skipWs cs) with
  | none => none
  | some cs =>
    match skipWs cs with
    | '\x7d' :: rest => some ([], rest)
    | rest => parseAssetsBody rest.length rest

/-- `json.load` of the account file plus the `is_buying` / `assets` key
accesses, for the record schema the program persists; `none` models a
raised `JSONDecodeError` or `KeyError`. -/
def parseAccountChars (cs : List Char) : Option Account :=
  match expectChar '\x7b' (skipWs cs) with
  | none => none
  | some cs =>
    match expectChar '"' (skipWs cs) with
    | none => none
    | some cs =>
      match takeStrBody cs with
      | none => none
      | some (key1, cs) =>
        if String.mk key1 ≠ "is_buying" then none
        else
          match expectChar ':' (skipWs cs) with
          | none => none
          | some cs =>
            match parseBoolLit (skipWs cs) with
            | none => none
            | some (b, cs) =>
              match expectChar ',' (skipWs cs) with
              | none => none
              | some cs =>
                match expectChar '"' (skipWs cs) with
                | none => none
                | some cs =>
                  match takeStrBody cs with
                  | none => none
                  | some (key2, cs) =>
                    if String.mk key2 ≠ "assets" then none
                    else
                      match expectChar ':' (skipWs cs) with
                      | none => none
                      | some cs =>
                      match parseAssets cs with
                      | none => none
                      | some (assets, cs) =>
                        match expectChar '\x7d' (skipWs cs) with
                        | none => none
                        | some cs =>
                          if (skipWs cs).isEmpty then some ⟨b, assets⟩
                          else none

/-- Account Store `load`: read and JSON-parse the persisted record. -/
def parseAccount (s : String) : Option Account :=
  parseAccountChars s.toList

/-- Claim C6: Account Store round-trip.  For a persisted record written by
the program (`serializeAccount` of an account whose `assets` mapping is
empty, as it always is in every reachable state), `load` followed by
`save` reproduces the on-disk content exactly. -/
theorem C6_roundtrip (a : Account) (h : a.assets = []) :
    (parseAccount (serializeAccount a)).map serializeAccount =
      some (serializeAccount a) ∧
    parseAccount (serializeAccount a) = some a := by
  obtain ⟨b, assets⟩ := a
  cases h
  cases b <;> exact ⟨by decide, by decide⟩

/-- Witness for `C6_roundtrip` at the initial account. -/
theorem C6_roundtrip_witness :
    (parseAccount (serializeAccount initialAccount)).map serializeAccount =
      some (serializeAccount initialAccount) ∧
    parseAccount (serializeAccount initialAccount) = some initialAccount :=
  C6_roundtrip initialAccount rfl

/- ------------------------------------------------------------------
   Order Executor: `do_trade` (src/bot.py lines 182-228).

   The exchange is an environment: the response to the one market-order
   submission, and the successive responses to `client.get_order` inside
   the polling loop.  An `Except.error` models a raised exception.  The
   polling loop `while order["status"] != "FILLED"` is an unbounded wait,
   modelled by running it against any finite list of poll responses:
   if the list is exhausted without a FILLED status the call is still
   waiting (`hang`).
   ------------------------------------------------------------------ -/

/-- Exchange responses available to one `do_trade` call. -/
structure TradeEnv where
  /-- response to `order_market_buy` / `order_market_sell` -/
  submit : Except String Order
  /-- successive responses to `client.get_order` -/
  polls : List (Except String Order)
deriving Repr

/-- Post-trade state visible to the caller: the (mutated, in-memory)
account dictionary and the content of the persisted account file. -/
structure TState where
  account : Account
  disk : Option String
deriving DecidableEq, Repr

/-- Result of the polling loop `while order["status"] != "FILLED"`
(src/bot.py 214-216), with the events it emitted. -/
inductive PollResult where
  /-- the loop exited with this FILLED order -/
  | filled (o : Order) (evs : List Ev)
  /-- `client.get_order` raised -/
  | exn (e : String) (evs : List Ev)
  /-- every provided response was consumed and the loop is still waiting -/
  | hang (evs : List Ev)
deriving DecidableEq, Repr

/-- The polling loop of `do_trade`: re-fetch the order and sleep one
second until its status is FILLED.  The sleep follows each successful
`get_order`, exactly as in the source. -/
def awaitFill (sym : String) (oid : Nat) (order : Order)
    (polls : List (Except String Order)) : PollResult :=
  if order.status = "FILLED" then .filled order []
  else
    match polls with
    | [] => .hang []
    | Except.error e :: _ => .exn e [Ev.getOrder sym oid]
    | Except.ok o :: rest =>
      match awaitFill sym oid o rest with
      | .filled o' evs => .filled o' (Ev.getOrder sym oid :: Ev.sleep 1 :: evs)
      | .exn e evs => .exn e (Ev.getOrder sym oid :: Ev.sleep 1 :: evs)
      | .hang evs => .hang (Ev.getOrder sym oid :: Ev.sleep 1 :: evs)

/-- `price_paid` (src/bot.py 220-222): the sum of `price * qty` over the
order's fills. -/
def price_paid (fills : List Fill) : ℚ :=
  (fills.map (fun fill => fill.price * fill.qty)).sum

/-- Result of one `do_trade` call: the state as left by the call together
with the events it emitted. -/
inductive Outcome where
  | ok (st : TState) (evs : List Ev)
  | exn (e : String) (st : TState) (evs : List Ev)
  | hang (st : TState) (evs : List Ev)
deriving DecidableEq, Repr

/-- `do_trade` (src/bot.py 182-228).  Submits a market order for `side`
(`"buy"` submits a buy and sets `is_buying := False`; ANY other string
takes the `else` branch: a sell and `is_buying := True`); polls until the
order is FILLED; computes `price_paid`; writes the trade log; and only
then overwrites the account file.  An exception anywhere propagates,
leaving the remaining steps unexecuted. -/
def do_trade (account : Account) (disk : Option String)
    (sym side : String) (quantity : ℚ) (env : TradeEnv) : Outcome :=
  let subEv := if side = "buy" then Ev.submitBuy sym quantity
               else Ev.submitSell sym quantity
  match env.submit with
  | Except.error e => .exn e ⟨account, disk⟩ [subEv]
  | Except.ok order =>
    let account :=
      if side = "buy" then { account with is_buying := false }
      else { account with is_buying := true }
    match awaitFill sym order.orderId order env.polls with
    | .exn e evs => .exn e ⟨account, disk⟩ (subEv :: evs)
    | .hang evs => .hang ⟨account, disk⟩ (subEv :: evs)
    | .filled o evs =>
      let price := price_paid o.fills
      let content := serializeAccount account
      .ok ⟨account, some content⟩
        (subEv :: evs ++
          [Ev.logTrade side quantity sym price,
           Ev.tradeCsv sym side quantity price,
           Ev.writeAccount content])

/-- Events of a `do_trade` outcome. -/
def outcomeEvs : Outcome → List Ev
  | .ok _ evs => evs
  | .exn _ _ evs => evs
  | .hang _ evs => evs

/-- The in-memory account of a `do_trade` outcome. -/
def outcomeAccount : Outcome → Account
  | .ok st _ => st.account
  | .exn _ st _ => st.account
  | .hang st _ => st.account

/-- Events of a polling-loop result. -/
def pollEvs : PollResult → List Ev
  | .filled _ evs => evs
  | .exn _ evs => evs
  | .hang evs => evs

/- ------------------------------------------------------------------
   Helper lemmas about the polling loop.
   ------------------------------------------------------------------ -/

lemma awaitFill_of_filled (sym : String) (oid : Nat) (order : Order)
    (polls : List (Except String Order)) (h : order.status = "FILLED") :
    awaitFill sym oid order polls = .filled order [] := by
  unfold awaitFill
  simp [h]

lemma awaitFill_nil (sym : String) (oid : Nat) (order : Order)
    (h : order.status ≠ "FILLED") :
    awaitFill sym oid order [] = .hang [] := by
  unfold awaitFill
  simp [h]

lemma awaitFill_cons_err (sym : String) (oid : Nat) (order : Order)
    (msg : String) (rest : List (Except String Order))
    (h : order.status ≠ "FILLED") :
    awaitFill sym oid order (Except.error msg :: rest) =
      .exn msg [Ev.getOrder sym oid] := by
  unfold awaitFill
  simp [h]

lemma awaitFill_cons_ok (sym : String) (oid : Nat) (order o : Order)
    (rest : List (Except String Order)) (h : order.status ≠ "FILLED") :
    awaitFill sym oid order (Except.ok o :: rest) =
      match awaitFill sym oid o rest with
      | .filled o' evs => .filled o' (Ev.getOrder sym oid :: Ev.sleep 1 :: evs)
      | .exn e evs => .exn e (Ev.getOrder sym oid :: Ev.sleep 1 :: evs)
      | .hang evs => .hang (Ev.getOrder sym oid :: Ev.sleep 1 :: evs) := by
  conv_lhs => unfold awaitFill
  simp [h]

lemma awaitFill_evs (sym : String) (oid : Nat) :
    ∀ (polls : List (Except String Order)) (order : Order),
      ∀ e ∈ pollEvs (awaitFill sym oid order polls),
        e = Ev.getOrder sym oid ∨ e = Ev.sleep 1 := by
  intro polls
  induction polls with
  | nil =>
    intro order e he
    by_cases hst : order.status = "FILLED"
    · rw [awaitFill_of_filled sym oid order [] hst] at he
      simp [pollEvs] at he
    · rw [awaitFill_nil sym oid order hst] at he
      simp [pollEvs] at he
  | cons r rest ih =>
    intro order e he
    by_cases hst : order.status = "FILLED"
    · rw [awaitFill_of_filled sym oid order _ hst] at he
      simp [pollEvs] at he
    · rcases r with msg | o
      · rw [awaitFill_cons_err sym oid order msg rest hst] at he
        simp [pollEvs] at he
        exact Or.inl he
      · rw [awaitFill_cons_ok sym oid order o rest hst] at he
        cases hrec : awaitFill sym oid o rest with
        | filled o' evs' =>
          rw [hrec] at he
          simp [pollEvs] at he
          rcases he with rfl | rfl | he
          · exact Or.inl rfl
          · exact Or.inr rfl
          · exact ih o e (by rw [hrec]; simpa [pollEvs] using he)
        | exn msg evs' =>
          rw [hrec] at he
          simp [pollEvs] at he
          rcases he with rfl | rfl | he
          · exact Or.inl rfl
          · exact Or.inr rfl
          · exact ih o e (by rw [hrec]; simpa [pollEvs] using he)
        | hang evs' =>
          rw [hrec] at he
          simp [pollEvs] at he
          rcases he with rfl | rfl | he
          · exact Or.inl rfl
          · exact Or.inr rfl
          · exact ih o e (by rw [hrec]; simpa [pollEvs] using he)

lemma awaitFill_filled (sym : String) (oid : Nat) :
    ∀ (polls : List (Except String Order)) (order o : Order) (evs : List Ev),
      awaitFill sym oid order polls = .filled o evs →
      o.status = "FILLED" ∧ (o = order ∨ Except.ok o ∈ polls) := by
  intro polls
  induction polls with
  | nil =>
    intro order o evs h
    by_cases hst : order.status = "FILLED"
    · rw [awaitFill_of_filled sym oid order [] hst] at h
      cases h
      exact ⟨hst, Or.inl rfl⟩
    · rw [awaitFill_nil sym oid order hst] at h
      cases h
  | cons r rest ih =>
    intro order o evs h
    by_cases hst : order.status = "FILLED"
    · rw [awaitFill_of_filled sym oid order _ hst] at h
      cases h
      exact ⟨hst, Or.inl rfl⟩
    · rcases r with msg | o2
      · rw [awaitFill_cons_err sym oid order msg rest hst] at h
        cases h
      · rw [awaitFill_cons_ok sym oid order o2 rest hst] at h
        cases hrec : awaitFill sym oid o2 rest with
        | filled o' evs' =>
          rw [hrec] at h
          simp at h
          obtain ⟨rfl, rfl⟩ := h
          rcases ih o2 _ evs' hrec with ⟨hstat, ho⟩
          refine ⟨hstat, Or.inr ?_⟩
          rcases ho with rfl | hmem
          · exact List.mem_cons_self _ _
          · exact List.mem_cons_of_mem _ hmem
        | exn msg evs' =>
          rw [hrec] at h
          simp at h
        | hang evs' =>
          rw [hrec] at h
          simp at h

lemma awaitFill_exn (sym : String) (oid : Nat) :
    ∀ (polls : List (Except String Order)) (order : Order) (e : String)
      (evs : List Ev),
      awaitFill sym oid order polls = .exn e evs →
      Except.error e ∈ polls := by
  intro polls
  induction polls with
  | nil =>
    intro order e evs h
    by_cases hst : order.status = "FILLED"
    · rw [awaitFill_of_filled sym oid order [] hst] at h
      cases h
    · rw [awaitFill_nil sym oid order hst] at h
      cases h
  | cons r rest ih =>
    intro order e evs h
    by_cases hst : order.status = "FILLED"
    · rw [awaitFill_of_filled sym oid order _ hst] at h
      cases h
    · rcases r with msg | o2
      · rw [awaitFill_cons_err sym oid order msg rest hst] at h
        cases h
        exact List.mem_cons_self _ _
      · rw [awaitFill_cons_ok sym oid order o2 rest hst] at h
        cases hrec : awaitFill sym oid o2 rest with
        | filled o' evs' =>
          rw [hrec] at h
          simp at h
        | exn msg evs' =>
          rw [hrec] at h
          simp at h
          obtain ⟨rfl, rfl⟩ := h
          exact List.mem_cons_of_mem _ (ih o2 _ _ hrec)
        | hang evs' =>
          rw [hrec] at h
          simp at h

/-- When the initial order is not FILLED and every poll response is a
successfully returned order that is still not FILLED, the loop consumes
everything and is still waiting; its trace is one `get_order` followed by
one one-second sleep per response. -/
lemma awaitFill_hang (sym : String) (oid : Nat) :
    ∀ (polls : List (Except String Order)) (order : Order),
      order.status ≠ "FILLED" →
      (∀ r ∈ polls, ∃ o, r = Except.ok o ∧ o.status ≠ "FILLED") →
      awaitFill sym oid order polls =
        .hang (List.flatten
          (List.replicate polls.length [Ev.getOrder sym oid, Ev.sleep 1])) := by
  intro polls
  induction polls with
  | nil =>
    intro order hord _
    simp [awaitFill_nil sym oid order hord]
  | cons r rest ih =>
    intro order hord hall
    obtain ⟨o, rfl, ho⟩ := hall r (List.mem_cons_self _ _)
    have hrec := ih o ho (fun r hr => hall r (List.mem_cons_of_mem _ hr))
    rw [awaitFill_cons_ok sym oid order o rest hord, hrec]
    simp [List.replicate_succ]

/-- Polling emits only `get_order` calls and one-second sleeps, so any
filter rejecting those two events is empty on a polling trace. -/
lemma pollEvs_filter_eq_nil (sym : String) (oid : Nat)
    (polls : List (Except String Order)) (order : Order) (p : Ev → Bool)
    (hget : p (Ev.getOrder sym oid) = false)
    (hsleep : p (Ev.sleep 1) = false) :
    (pollEvs (awaitFill sym oid order polls)).filter p = [] := by
  rw [List.filter_eq_nil_iff]
  intro e he
  rcases awaitFill_evs sym oid polls order e he with rfl | rfl <;>
    simp [hget, hsleep]

/- ------------------------------------------------------------------
   Inversion lemmas for `do_trade`.
   ------------------------------------------------------------------ -/

/-- The `side`-dependent submission event of `do_trade`. -/
def subEv (sym side : String) (q : ℚ) : Ev :=
  if side = "buy" then Ev.submitBuy sym q else Ev.submitSell sym q

/-- The `side`-dependent account update of `do_trade`. -/
def toggled (account : Account) (side : String) : Account :=
  if side = "buy" then { account with is_buying := false }
  else { account with is_buying := true }

lemma do_trade_submit_err (account : Account) (disk : Option String)
    (sym side : String) (q : ℚ) (env : TradeEnv) (e : String)
    (hsub : env.submit = Except.error e) :
    do_trade account disk sym side q env =
      .exn e ⟨account, disk⟩ [subEv sym side q] := by
  unfold do_trade subEv
  rw [hsub]

lemma do_trade_submit_ok (account : Account) (disk : Option String)
    (sym side : String) (q : ℚ) (env : TradeEnv) (order : Order)
    (hsub : env.submit = Except.ok order) :
    do_trade account disk sym side q env =
      match awaitFill sym order.orderId order env.polls with
      | .exn e evs => .exn e ⟨toggled account side, disk⟩ (subEv sym side q :: evs)
      | .hang evs => .hang ⟨toggled account side, disk⟩ (subEv sym side q :: evs)
      | .filled o evs =>
        .ok ⟨toggled account side,
             some (serializeAccount (toggled account side))⟩
          (subEv sym side q :: evs ++
            [Ev.logTrade side q sym (price_paid o.fills),
             Ev.tradeCsv sym side q (price_paid o.fills),
             Ev.writeAccount (serializeAccount (toggled account side))]) := by
  unfold do_trade subEv toggled
  rw [hsub]

lemma do_trade_ok_inv (account : Account) (disk : Option String)
    (sym side : String) (q : ℚ) (env : TradeEnv) (st' : TState) (evs : List Ev)
    (h : do_trade account disk sym side q env = .ok st' evs) :
    ∃ order o pevs,
      env.submit = Except.ok order ∧
      awaitFill sym order.orderId order env.polls = .filled o pevs ∧
      st'.account = toggled account side ∧
      st'.disk = some (serializeAccount (toggled account side)) ∧
      evs = subEv sym side q :: pevs ++
              [Ev.logTrade side q sym (price_paid o.fills),
               Ev.tradeCsv sym side q (price_paid o.fills),
               Ev.writeAccount (serializeAccount (toggled account side))] := by
  cases hsub : env.submit with
  | error e =>
    rw [do_trade_submit_err account disk sym side q env e hsub] at h
    cases h
  | ok order =>
    rw [do_trade_submit_ok account disk sym side q env order hsub] at h
    cases hfill : awaitFill sym order.orderId order env.polls with
    | filled o pevs =>
      rw [hfill] at h
      cases h
      exact ⟨order, o, pevs, rfl, hfill, rfl, rfl, rfl⟩
    | exn e pevs =>
      rw [hfill] at h
      cases h
    | hang pevs =>
      rw [hfill] at h
      cases h

lemma do_trade_exn_inv (account : Account) (disk : Option String)
    (sym side : String) (q : ℚ) (env : TradeEnv) (e : String) (st' : TState)
    (evs : List Ev)
    (h : do_trade account disk sym side q env = .exn e st' evs) :
    st'.disk = disk ∧
    ((env.submit = Except.error e ∧ st'.account = account ∧
        evs = [subEv sym side q]) ∨
     (∃ order pevs, env.submit = Except.ok order ∧
        awaitFill sym order.orderId order env.polls = .exn e pevs ∧
        st'.account = toggled account side ∧
        evs = subEv sym side q :: pevs)) := by
  cases hsub : env.submit with
  | error msg =>
    rw [do_trade_submit_err account disk sym side q env msg hsub] at h
    cases h
    exact ⟨rfl, Or.inl ⟨rfl, rfl, rfl⟩⟩
  | ok order =>
    rw [do_trade_submit_ok account disk sym side q env order hsub] at h
    cases hfill : awaitFill sym order.orderId order env.polls with
    | filled o pevs =>
      rw [hfill] at h
      cases h
    | exn msg pevs =>
      rw [hfill] at h
      cases h
      exact ⟨rfl, Or.inr ⟨order, pevs, rfl, hfill, rfl, rfl⟩⟩
    | hang pevs =>
      rw [hfill] at h
      cases h

lemma do_trade_hang_inv (account : Account) (disk : Option String)
    (sym side : String) (q : ℚ) (env : TradeEnv) (st' : TState)
    (evs : List Ev)
    (h : do_trade account disk sym side q env = .hang st' evs) :
    st'.disk = disk ∧ st'.account = toggled account side ∧
    ∃ order pevs, env.submit = Except.ok order ∧
      awaitFill sym order.orderId order env.polls = .hang pevs ∧
      evs = subEv sym side q :: pevs := by
  cases hsub : env.submit with
  | error msg =>
    rw [do_trade_submit_err account disk sym side q env msg hsub] at h
    cases h
  | ok order =>
    rw [do_trade_submit_ok account disk sym side q env order hsub] at h
    cases hfill : awaitFill sym order.orderId order env.polls with
    | filled o pevs =>
      rw [hfill] at h
      cases h
    | exn msg pevs =>
      rw [hfill] at h
      cases h
    | hang pevs =>
      rw [hfill] at h
      cases h
      exact ⟨rfl, rfl, order, pevs, rfl, hfill, rfl⟩

lemma subEv_not_write (sym side : String) (q : ℚ) :
    isWrite (subEv sym side q) = false := by
  unfold subEv
  by_cases h : side = "buy" <;> simp [h, isWrite]

lemma subEv_not_csv (sym side : String) (q : ℚ) :
    isCsv (subEv sym side q) = false := by
  unfold subEv
  by_cases h : side = "buy" <;> simp [h, isCsv]

lemma subEv_is_submit (sym side : String) (q : ℚ) :
    isSubmit (subEv sym side q) = true := by
  unfold subEv
  by_cases h : side = "buy" <;> simp [h, isSubmit]

lemma pevs_filter_eq_nil (sym : String) (oid : Nat)
    (polls : List (Except String Order)) (order : Order) (pevs : List Ev)
    (p : Ev → Bool) (hget : p (Ev.getOrder sym oid) = false)
    (hsleep : p (Ev.sleep 1) = false)
    (h : pollEvs (awaitFill sym oid order polls) = pevs) :
    pevs.filter p = [] := by
  rw [← h]
  exact pollEvs_filter_eq_nil sym oid polls order p hget hsleep

/-- Filtering past a head event the predicate rejects. -/
lemma filter_cons_head_false {p : Ev → Bool} {a : Ev} (h : p a = false)
    (l : List Ev) : List.filter p (a :: l) = List.filter p l := by
  simp [List.filter_cons, h]

/- ------------------------------------------------------------------
   Claims C3, C4, C5, C9, C10: the Order Executor.
   ------------------------------------------------------------------ -/

/-- Exchange environment used by the C3 counterexample (and related
witnesses): submission succeeds with a not-yet-filled order, and the first
status poll raises. -/
def failingPollEnv : TradeEnv :=
  { submit := Except.ok { orderId := 7, status := "NEW", fills := [] },
    polls := [Except.error "network error"] }

/-- Claim C3, counterexample.  The claim says `is_buying` toggles only
after the fill is fully confirmed, never on a failed or unconfirmed
order.  In the code the in-memory flag is assigned immediately after
submission, before any fill confirmation: submitting a buy whose first
status poll then raises leaves the trade failed and unconfirmed, yet the
account dictionary already carries `is_buying = False`.  (Only the
persisted file is left untouched.) -/
theorem C3_counterexample :
    do_trade initialAccount (some (serializeAccount initialAccount))
        "BTCUSDT" "buy" (1 / 1000) failingPollEnv =
      .exn "network error"
        ⟨{ is_buying := false, assets := [] },
         some (serializeAccount initialAccount)⟩
        [Ev.submitBuy "BTCUSDT" (1 / 1000), Ev.getOrder "BTCUSDT" 7] ∧
    initialAccount.is_buying = true := by
  exact ⟨rfl, rfl⟩

/-- Claim C3, amended: `do_trade` sets the in-memory flag right after a
successful submission (before the fill is confirmed), but the PERSISTED
`is_buying` toggles exactly once per successfully completed trade — on
success the file is overwritten exactly once, with the flipped flag, and
only after the fill is confirmed; on a failed or unconfirmed order the
persisted record is never written. -/
theorem C3_persisted_toggle (account : Account) (disk : Option String)
    (sym side : String) (q : ℚ) (env : TradeEnv) :
    (∀ st' evs, do_trade account disk sym side q env = .ok st' evs →
        st'.account = toggled account side ∧
        st'.disk = some (serializeAccount (toggled account side)) ∧
        writes evs = [Ev.writeAccount (serializeAccount (toggled account side))])
    ∧ (∀ e st' evs, do_trade account disk sym side q env = .exn e st' evs →
        st'.disk = disk ∧ writes evs = [])
    ∧ (∀ st' evs, do_trade account disk sym side q env = .hang st' evs →
        st'.disk = disk ∧ writes evs = []) := by
  refine ⟨?_, ?_, ?_⟩
  · intro st' evs h
    obtain ⟨order, o, pevs, hsub, hfill, hacc, hdisk, hevs⟩ :=
      do_trade_ok_inv account disk sym side q env st' evs h
    refine ⟨hacc, hdisk, ?_⟩
    have hp : pevs.filter isWrite = [] :=
      pevs_filter_eq_nil sym order.orderId env.polls order pevs isWrite
        rfl rfl (by rw [hfill]; rfl)
    subst hevs
    show List.filter isWrite _ = _
    rw [List.cons_append,
        filter_cons_head_false (subEv_not_write sym side q),
        List.filter_append, hp]
    rfl
  · intro e st' evs h
    obtain ⟨hdisk, hcase⟩ := do_trade_exn_inv account disk sym side q env e st' evs h
    refine ⟨hdisk, ?_⟩
    rcases hcase with ⟨_, _, rfl⟩ | ⟨order, pevs, hsub, hfill, _, rfl⟩
    · simp [writes, subEv_not_write]
    · have hp : pevs.filter isWrite = [] :=
        pevs_filter_eq_nil sym order.orderId env.polls order pevs isWrite
          rfl rfl (by rw [hfill]; rfl)
      simp [writes, hp, subEv_not_write]
  · intro st' evs h
    obtain ⟨hdisk, _, order, pevs, hsub, hfill, rfl⟩ :=
      do_trade_hang_inv account disk sym side q env st' evs h
    refine ⟨hdisk, ?_⟩
    have hp : pevs.filter isWrite = [] :=
      pevs_filter_eq_nil sym order.orderId env.polls order pevs isWrite
        rfl rfl (by rw [hfill]; rfl)
    simp [writes, hp, subEv_not_write]

/-- Witness for `C3_persisted_toggle`: a successful buy against an
immediately-FILLED order persists exactly one toggled record. -/
theorem C3_persisted_toggle_witness :
    (⟨{ is_buying := false, assets := [] },
      some (serializeAccount { is_buying := false, assets := [] })⟩ : TState).account =
        toggled initialAccount "buy" ∧
    (⟨{ is_buying := false, assets := [] },
      some (serializeAccount { is_buying := false, assets := [] })⟩ : TState).disk =
        some (serializeAccount (toggled initialAccount "buy")) ∧
    writes [Ev.submitBuy "BTCUSDT" (1 / 1000),
            Ev.logTrade "buy" (1 / 1000) "BTCUSDT" (price_paid []),
            Ev.tradeCsv "BTCUSDT" "buy" (1 / 1000) (price_paid []),
            Ev.writeAccount (serializeAccount (toggled initialAccount "buy"))] =
      [Ev.writeAccount (serializeAccount (toggled initialAccount "buy"))] :=
  (C3_persisted_toggle initialAccount (some (serializeAccount initialAccount))
      "BTCUSDT" "buy" (1 / 1000)
      { submit := Except.ok { orderId := 7, status := "FILLED", fills := [] },
        polls := [] }).1
    ⟨{ is_buying := false, assets := [] },
      some (serializeAccount { is_buying := false, assets := [] })⟩
    [Ev.submitBuy "BTCUSDT" (1 / 1000),
     Ev.logTrade "buy" (1 / 1000) "BTCUSDT" (price_paid []),
     Ev.tradeCsv "BTCUSDT" "buy" (1 / 1000) (price_paid []),
     Ev.writeAccount (serializeAccount (toggled initialAccount "buy"))]
    rfl

/-- Claim C4: any exception during submission or polling propagates to
the caller (it is one genuinely raised by the submission response or by a
poll response), the persisted account file is left at its pre-trade
value, no trade-log row is written, and there is no retry — exactly one
submission ever happens. -/
theorem C4_exception_leaves_store (account : Account) (disk : Option String)
    (sym side : String) (q : ℚ) (env : TradeEnv) :
    ∀ e st' evs, do_trade account disk sym side q env = .exn e st' evs →
      st'.disk = disk ∧ writes evs = [] ∧ csvRows evs = [] ∧
      (submits evs).length = 1 ∧
      (env.submit = Except.error e ∨ Except.error e ∈ env.polls) := by
  intro e st' evs h
  obtain ⟨hdisk, hcase⟩ := do_trade_exn_inv account disk sym side q env e st' evs h
  rcases hcase with ⟨hsub, _, rfl⟩ | ⟨order, pevs, hsub, hfill, _, rfl⟩
  · refine ⟨hdisk, ?_, ?_, ?_, Or.inl hsub⟩
    · simp [writes, subEv_not_write]
    · simp [csvRows, subEv_not_csv]
    · simp [submits, subEv_is_submit]
  · have hw : pevs.filter isWrite = [] :=
      pevs_filter_eq_nil sym order.orderId env.polls order pevs isWrite
        rfl rfl (by rw [hfill]; rfl)
    have hc : pevs.filter isCsv = [] :=
      pevs_filter_eq_nil sym order.orderId env.polls order pevs isCsv
        rfl rfl (by rw [hfill]; rfl)
    have hs : pevs.filter isSubmit = [] :=
      pevs_filter_eq_nil sym order.orderId env.polls order pevs isSubmit
        rfl rfl (by rw [hfill]; rfl)
    refine ⟨hdisk, ?_, ?_, ?_, Or.inr ?_⟩
    · simp [writes, hw, subEv_not_write]
    · simp [csvRows, hc, subEv_not_csv]
    · simp [submits, hs, subEv_is_submit]
    · exact awaitFill_exn sym order.orderId env.polls order e pevs hfill

/-- Witness for `C4_exception_leaves_store`: a submission that raises
leaves the store at its pre-trade content. -/
theorem C4_exception_leaves_store_witness :
    (⟨initialAccount, some "pre-trade"⟩ : TState).disk = some "pre-trade" ∧
    writes [Ev.submitBuy "BTCUSDT" (1 / 1000)] = [] ∧
    csvRows [Ev.submitBuy "BTCUSDT" (1 / 1000)] = [] ∧
    (submits [Ev.submitBuy "BTCUSDT" (1 / 1000)]).length = 1 ∧
    (({ submit := Except.error "binance down", polls := [] } : TradeEnv).submit =
        Except.error "binance down" ∨
      Except.error "binance down" ∈
        ({ submit := Except.error "binance down", polls := [] } : TradeEnv).polls) :=
  C4_exception_leaves_store initialAccount (some "pre-trade") "BTCUSDT" "buy"
    (1 / 1000) { submit := Except.error "binance down", polls := [] }
    "binance down" ⟨initialAccount, some "pre-trade"⟩
    [Ev.submitBuy "BTCUSDT" (1 / 1000)] rfl

/-- Claim C5: on a completed trade the single row written to the trade
log carries, in its price column, `price_paid` of the filled order — the
sum over the fills of `price * qty`, i.e. the total notional cost, with
no division by the total quantity. -/
theorem C5_logged_price_total_notional (account : Account)
    (disk : Option String) (sym side : String) (q : ℚ) (env : TradeEnv) :
    ∀ st' evs, do_trade account disk sym side q env = .ok st' evs →
      ∃ o, o.status = "FILLED" ∧
        (env.submit = Except.ok o ∨ Except.ok o ∈ env.polls) ∧
        csvRows evs = [Ev.tradeCsv sym side q (price_paid o.fills)] ∧
        price_paid o.fills =
          (o.fills.map (fun fill => fill.price * fill.qty)).sum := by
  intro st' evs h
  obtain ⟨order, o, pevs, hsub, hfill, _, _, hevs⟩ :=
    do_trade_ok_inv account disk sym side q env st' evs h
  obtain ⟨hstat, hsrc⟩ := awaitFill_filled sym order.orderId env.polls order o pevs hfill
  have hc : pevs.filter isCsv = [] :=
    pevs_filter_eq_nil sym order.orderId env.polls order pevs isCsv
      rfl rfl (by rw [hfill]; rfl)
  refine ⟨o, hstat, ?_, ?_, rfl⟩
  · rcases hsrc with rfl | hmem
    · exact Or.inl hsub
    · exact Or.inr hmem
  · subst hevs
    show List.filter isCsv _ = _
    rw [List.cons_append,
        filter_cons_head_false (subEv_not_csv sym side q),
        List.filter_append, hc]
    rfl

/-- Witness for `C5_logged_price_total_notional`: a buy filled in two
partial fills of 100×0.0005 and 102×0.0005 logs price 0.101 — the total
cost, not the average 101. -/
theorem C5_logged_price_witness :
    ∃ o, o.status = "FILLED" ∧
      (({ submit := Except.ok
            { orderId := 7, status := "FILLED",
              fills := [{ price := 100, qty := 1 / 2000 },
                        { price := 102, qty := 1 / 2000 }] },
          polls := [] } : TradeEnv).submit = Except.ok o ∨
        Except.ok o ∈
          ({ submit := Except.ok
               { orderId := 7, status := "FILLED",
                 fills := [{ price := 100, qty := 1 / 2000 },
                           { price := 102, qty := 1 / 2000 }] },
             polls := [] } : TradeEnv).polls) ∧
      csvRows [Ev.submitBuy "BTCUSDT" (1 / 1000),
               Ev.logTrade "buy" (1 / 1000) "BTCUSDT"
       (price_paid [{ price := 100, qty := 1 / 2000 }, { price := 102, qty := 1 / 2000 }]),
               Ev.tradeCsv "BTCUSDT" "buy" (1 / 1000)
       (price_paid [{ price := 100, qty := 1 / 2000 }, { price := 102, qty := 1 / 2000 }]),
               Ev.writeAccount (serializeAccount (toggled initialAccount "buy"))] =
        [Ev.tradeCsv "BTCUSDT" "buy" (1 / 1000) (price_paid o.fills)] ∧
      price_paid o.fills =
        (o.fills.map (fun fill => fill.price * fill.qty)).sum :=
  C5_logged_price_total_notional initialAccount
    (some (serializeAccount initialAccount)) "BTCUSDT" "buy" (1 / 1000)
    { submit := Except.ok
        { orderId := 7, status := "FILLED",
          fills := [{ price := 100, qty := 1 / 2000 },
                    { price := 102, qty := 1 / 2000 }] },
      polls := [] }
    ⟨toggled initialAccount "buy",
      some (serializeAccount (toggled initialAccount "buy"))⟩
    [Ev.submitBuy "BTCUSDT" (1 / 1000),
     Ev.logTrade "buy" (1 / 1000) "BTCUSDT"
       (price_paid [{ price := 100, qty := 1 / 2000 }, { price := 102, qty := 1 / 2000 }]),
     Ev.tradeCsv "BTCUSDT" "buy" (1 / 1000)
       (price_paid [{ price := 100, qty := 1 / 2000 }, { price := 102, qty := 1 / 2000 }]),
     Ev.writeAccount (serializeAccount (toggled initialAccount "buy"))]
    rfl

/-- Claim C9: the polling loop exits (and the call reaches price
computation, logging, persistence) only with a FILLED order; as long as
the initial and every polled status is not FILLED the loop is still
waiting after any finite number of responses — an unbounded wait, one
`get_order` followed by a fixed one-second sleep per poll — and while it
waits nothing is logged and nothing is persisted. -/
theorem C9_poll_until_filled (sym : String) (oid : Nat) :
    (∀ (polls : List (Except String Order)) (order o : Order) (evs : List Ev),
        awaitFill sym oid order polls = .filled o evs → o.status = "FILLED")
    ∧ (∀ (polls : List (Except String Order)) (order : Order),
        order.status ≠ "FILLED" →
        (∀ r ∈ polls, ∃ o, r = Except.ok o ∧ o.status ≠ "FILLED") →
        awaitFill sym oid order polls =
          .hang (List.flatten
            (List.replicate polls.length [Ev.getOrder sym oid, Ev.sleep 1])))
    ∧ (∀ (account : Account) (disk : Option String) (side : String) (q : ℚ)
        (env : TradeEnv) (st' : TState) (evs : List Ev),
        do_trade account disk sym side q env = .hang st' evs →
        writes evs = [] ∧ csvRows evs = []) := by
  refine ⟨?_, awaitFill_hang sym oid, ?_⟩
  · intro polls order o evs h
    exact (awaitFill_filled sym oid polls order o evs h).1
  · intro account disk side q env st' evs h
    obtain ⟨_, _, order, pevs, hsub, hfill, rfl⟩ :=
      do_trade_hang_inv account disk sym side q env st' evs h
    have hw : pevs.filter isWrite = [] :=
      pevs_filter_eq_nil sym order.orderId env.polls order pevs isWrite
        rfl rfl (by rw [hfill]; rfl)
    have hc : pevs.filter isCsv = [] :=
      pevs_filter_eq_nil sym order.orderId env.polls order pevs isCsv
        rfl rfl (by rw [hfill]; rfl)
    constructor
    · simp [writes, hw, subEv_not_write]
    · simp [csvRows, hc, subEv_not_csv]

/-- Witness for `C9_poll_until_filled`: one NEW response keeps the loop
waiting with trace `[get_order, sleep 1]`, and a FILLED initial response
exits at once. -/
theorem C9_poll_until_filled_witness :
    ({ orderId := 7, status := "FILLED", fills := [] } : Order).status =
      "FILLED" ∧
    awaitFill "BTCUSDT" 7 { orderId := 7, status := "NEW", fills := [] }
        [Except.ok { orderId := 7, status := "NEW", fills := [] }] =
      .hang (List.flatten
        (List.replicate
          ([Except.ok { orderId := 7, status := "NEW", fills := [] }] :
            List (Except String Order)).length
          [Ev.getOrder "BTCUSDT" 7, Ev.sleep 1])) ∧
    writes [Ev.submitBuy "BTCUSDT" (1 / 1000), Ev.getOrder "BTCUSDT" 7,
            Ev.sleep 1] = [] ∧
    csvRows [Ev.submitBuy "BTCUSDT" (1 / 1000), Ev.getOrder "BTCUSDT" 7,
             Ev.sleep 1] = [] := by
  refine ⟨?_, ?_, ?_⟩
  · exact (C9_poll_until_filled "BTCUSDT" 7).1 []
      { orderId := 7, status := "FILLED", fills := [] }
      { orderId := 7, status := "FILLED", fills := [] } [] rfl
  · exact (C9_poll_until_filled "BTCUSDT" 7).2.1
      [Except.ok { orderId := 7, status := "NEW", fills := [] }]
      { orderId := 7, status := "NEW", fills := [] } (by decide)
      (by
        intro r hr
        simp at hr
        exact ⟨{ orderId := 7, status := "NEW", fills := [] }, hr, by decide⟩)
  · exact (C9_poll_until_filled "BTCUSDT" 7).2.2 initialAccount
      (some (serializeAccount initialAccount)) "buy" (1 / 1000)
      { submit := Except.ok { orderId := 7, status := "NEW", fills := [] },
        polls := [Except.ok { orderId := 7, status := "NEW", fills := [] }] }
      ⟨toggled initialAccount "buy", some (serializeAccount initialAccount)⟩
      [Ev.submitBuy "BTCUSDT" (1 / 1000), Ev.getOrder "BTCUSDT" 7, Ev.sleep 1]
      rfl

/-- Claim C10: for every `side` other than the exact string `"buy"` —
not just `"sell"` — `do_trade` takes the `else` branch: it submits a
market SELL as its first action (no rejection of invalid sides), and as
soon as submission succeeds it sets `is_buying := True` in the account,
whatever the outcome of the rest of the call. -/
theorem C10_nonbuy_sells (account : Account) (disk : Option String)
    (sym side : String) (q : ℚ) (env : TradeEnv) (h : side ≠ "buy") :
    (outcomeEvs (do_trade account disk sym side q env)).head? =
      some (Ev.submitSell sym q) ∧
    (∀ order, env.submit = Except.ok order →
      outcomeAccount (do_trade account disk sym side q env) =
        { account with is_buying := true }) := by
  have hse : subEv sym side q = Ev.submitSell sym q := by
    unfold subEv
    simp [h]
  have htog : toggled account side = { account with is_buying := true } := by
    unfold toggled
    simp [h]
  constructor
  · cases hs : env.submit with
    | error e =>
      rw [do_trade_submit_err account disk sym side q env e hs]
      simp [outcomeEvs, hse]
    | ok order =>
      rw [do_trade_submit_ok account disk sym side q env order hs]
      cases hfill : awaitFill sym order.orderId order env.polls <;>
        simp [outcomeEvs, hse]
  · intro order hs
    rw [do_trade_submit_ok account disk sym side q env order hs]
    cases hfill : awaitFill sym order.orderId order env.polls <;>
      simp [outcomeAccount, htog]

/- ------------------------------------------------------------------
   Indicator Engine: `get_rsi` (src/bot.py lines 94-109).

   `get_rsi` fetches the recent closing prices and computes
   `ta.rsi(close, length=14)`, returning the column's last entry with
   `iloc[-1]`.  The fetched prices are an environment input (the list
   below).  The indicator library is an external collaborator; per the
   spec's Indicator Engine contract it computes a 14-period RSI with
   Wilder's smoothing (`100 − 100/(1+RS)`, algebraically
   `100·gain/(gain+|loss|)`), undefined (NaN, here `none`) while fewer
   than `period + 1 = 15` samples are available, and undefined on a
   zero-gain zero-loss window (a 0/0).  `iloc[-1]` on an empty frame
   raises an `IndexError`; that is source behaviour, kept as
   `Except.error`.
   ------------------------------------------------------------------ -/

/-- First differences of the price series (`close.diff()`, dropping the
leading NaN). -/
def diffs : List ℚ → List ℚ
  | a :: b :: rest => (b - a) :: diffs (b :: rest)
  | _ => []

/-- The positive-move series: negative differences clipped to 0. -/
def gainsOf (ds : List ℚ) : List ℚ :=
  ds.map (fun d => if d < 0 then 0 else d)

/-- The negative-move series: positive differences clipped to 0 (values
are `≤ 0`; the consumer takes the absolute value). -/
def lossesOf (ds : List ℚ) : List ℚ :=
  ds.map (fun d => if 0 < d then 0 else d)

/-- Wilder's 14-period running moving average: undefined until 14 inputs
exist, seeded with the plain average of the first 14 and then smoothed by
`a ↦ (13a + x)/14`. -/
def rma14 (xs : List ℚ) : Option ℚ :=
  if xs.length < 14 then none
  else
    some ((xs.drop 14).foldl (fun a x => (13 * a + x) / 14)
      ((xs.take 14).sum / 14))

/-- `get_rsi` (src/bot.py 94-109) over the fetched closing prices:
`Except.error` models an exception escaping `get_rsi`, `Except.ok none`
an undefined (NaN) reading. -/
def get_rsi (prices : List ℚ) : Except String (Option ℚ) :=
  match prices with
  | [] => Except.error "IndexError"
  | _ :: _ =>
    match rma14 (gainsOf (diffs prices)), rma14 (lossesOf (diffs prices)) with
    | some g, some l =>
      if g + |l| = 0 then Except.ok none
      else Except.ok (some (100 * g / (g + |l|)))
    | _, _ => Except.ok none

lemma diffs_length : ∀ xs : List ℚ, (diffs xs).length = xs.length - 1 := by
  intro xs
  induction xs with
  | nil => rfl
  | cons a tl ih =>
    cases tl with
    | nil => rfl
    | cons b rest =>
      show (diffs (a :: b :: rest)).length = (a :: b :: rest).length - 1
      rw [show diffs (a :: b :: rest) = (b - a) :: diffs (b :: rest) from rfl]
      simp only [List.length_cons] at ih ⊢
      omega

lemma get_rsi_cons (p : ℚ) (ps : List ℚ) :
    get_rsi (p :: ps) =
      match rma14 (gainsOf (diffs (p :: ps))),
            rma14 (lossesOf (diffs (p :: ps))) with
      | some g, some l =>
        if g + |l| = 0 then Except.ok none
        else Except.ok (some (100 * g / (g + |l|)))
      | _, _ => Except.ok none := rfl

/-- With at least one but fewer than 15 samples the reading is
undefined. -/
lemma get_rsi_short (prices : List ℚ) (hne : prices ≠ [])
    (hlt : prices.length < 15) : get_rsi prices = Except.ok none := by
  cases prices with
  | nil => exact absurd rfl hne
  | cons p ps =>
    have hg : rma14 (gainsOf (diffs (p :: ps))) = none := by
      unfold rma14
      rw [if_pos]
      unfold gainsOf
      rw [List.length_map, diffs_length]
      simp only [List.length_cons] at hlt ⊢
      omega
    have hl : rma14 (lossesOf (diffs (p :: ps))) = none := by
      unfold rma14
      rw [if_pos]
      unfold lossesOf
      rw [List.length_map, diffs_length]
      simp only [List.length_cons] at hlt ⊢
      omega
    rw [get_rsi_cons, hg, hl]

/- ------------------------------------------------------------------
   Main loop (src/bot.py lines 235-260): one iteration of the
   `while True` body.

   The body is a straight-line block; it is modelled here as a chain of
   definitions, one per control point, composed by `iteration`:
   ensure the account file exists (`create_account`), load and parse it,
   read the new RSI (an environment input, since it comes from the
   exchange), evaluate the signal against the carried previous reading,
   run `do_trade` when a signal fires, and sleep 3 seconds.  Any raised
   exception is caught by the `except` clause, which logs
   `"ERROR" + str(e)` and continues WITHOUT reaching the
   `time.sleep(3)` (the sleep sits inside the `try`).  A `do_trade`
   that never observes FILLED leaves the iteration blocked (`hang`).
   ------------------------------------------------------------------ -/

/-- Global loop state: the account-file content (none = file absent) and
the carried RSI reading (the global `rsi`, whose value becomes `old_rsi`
at the start of the next iteration). -/
structure LoopState where
  disk : Option String
  rsi : Option ℚ
deriving DecidableEq, Repr

/-- Environment of one iteration: the outcome of `get_rsi` (a raised
exception or a reading) and the exchange responses for a possible
`do_trade`. -/
structure LoopEnv where
  rsiResp : Except String (Option ℚ)
  trade : TradeEnv
deriving Repr

/-- Result of one iteration: the loop continues with a new state (with
`some e` recording that exception `e` was caught this iteration), or the
iteration never terminates inside `do_trade`. -/
inductive IterResult where
  | next (st : LoopState) (evs : List Ev) (err : Option String)
  | hang (evs : List Ev)
deriving DecidableEq, Repr

/-- Events of an iteration result. -/
def iterEvs : IterResult → List Ev
  | .next _ evs _ => evs
  | .hang evs => evs

/-- Message of the exception raised when the account file fails to parse
(`json.load` / key access). -/
def jsonErr : String := "JSONDecodeError"

/-- The `side` string the main loop passes to `do_trade`. -/
def sideStr : Side → String
  | Side.buy => "buy"
  | Side.sell => "sell"

/-- The write performed by `create_account` when the file is absent
(src/bot.py 237-238). -/
def createEvs (disk : Option String) : List Ev :=
  match disk with
  | none => [Ev.writeAccount (serializeAccount initialAccount)]
  | some _ => []

/-- The account-file content after the existence check: the file's
content, or the freshly created initial record. -/
def diskContent (disk : Option String) : String :=
  match disk with
  | none => serializeAccount initialAccount
  | some s => s

/-- Continuation of the iteration after `do_trade` returns (or raises, or
never returns). -/
def iterTrade (st : LoopState) (r : Option ℚ) : Outcome → IterResult
  | .ok st' evs =>
    .next ⟨st'.disk, r⟩ (createEvs st.disk ++ evs ++ [Ev.sleep 3]) none
  | .exn e st' evs =>
    .next ⟨st'.disk, r⟩
      (createEvs st.disk ++ evs ++ [Ev.logLine ("ERROR" ++ e)]) (some e)
  | .hang _ evs => .hang (createEvs st.disk ++ evs)

/-- Continuation after the new reading `r` is available: evaluate the
signal against the previous reading and trade or sleep. -/
def iterWithRsi (st : LoopState) (env : LoopEnv) (account : Account)
    (r : Option ℚ) : IterResult :=
  match signal account.is_buying r st.rsi with
  | none => .next ⟨some (diskContent st.disk), r⟩
      (createEvs st.disk ++ [Ev.sleep 3]) none
  | some sd =>
    iterTrade st r
      (do_trade account (some (diskContent st.disk)) asset (sideStr sd)
        tradeQty env.trade)

/-- Continuation after the account is loaded: `rsi = get_rsi(asset)` may
raise (caught and logged), else proceed with the reading. -/
def iterWithAccount (st : LoopState) (env : LoopEnv)
    (account : Account) : IterResult :=
  match env.rsiResp with
  | Except.error e =>
    .next ⟨some (diskContent st.disk), st.rsi⟩
      (createEvs st.disk ++ [Ev.logLine ("ERROR" ++ e)]) (some e)
  | Except.ok r => iterWithRsi st env account r

/-- One iteration of the main loop's `try` body with its `except`
clause. -/
def iteration (st : LoopState) (env : LoopEnv) : IterResult :=
  match parseAccount (diskContent st.disk) with
  | none =>
    .next ⟨some (diskContent st.disk), st.rsi⟩
      (createEvs st.disk ++ [Ev.logLine ("ERROR" ++ jsonErr)]) (some jsonErr)
  | some account => iterWithAccount st env account

lemma iteration_parse_none (st : LoopState) (env : LoopEnv)
    (h : parseAccount (diskContent st.disk) = none) :
    iteration st env =
      .next ⟨some (diskContent st.disk), st.rsi⟩
        (createEvs st.disk ++ [Ev.logLine ("ERROR" ++ jsonErr)])
        (some jsonErr) := by
  unfold iteration
  rw [h]

lemma iteration_parse_some (st : LoopState) (env : LoopEnv)
    (account : Account)
    (h : parseAccount (diskContent st.disk) = some account) :
    iteration st env = iterWithAccount st env account := by
  unfold iteration
  rw [h]

lemma iterWithAccount_err (st : LoopState) (env : LoopEnv)
    (account : Account) (e : String) (h : env.rsiResp = Except.error e) :
    iterWithAccount st env account =
      .next ⟨some (diskContent st.disk), st.rsi⟩
        (createEvs st.disk ++ [Ev.logLine ("ERROR" ++ e)]) (some e) := by
  unfold iterWithAccount
  rw [h]

lemma iterWithAccount_ok (st : LoopState) (env : LoopEnv)
    (account : Account) (r : Option ℚ) (h : env.rsiResp = Except.ok r) :
    iterWithAccount st env account = iterWithRsi st env account r := by
  unfold iterWithAccount
  rw [h]

lemma iterWithRsi_none (st : LoopState) (env : LoopEnv) (account : Account)
    (r : Option ℚ) (h : signal account.is_buying r st.rsi = none) :
    iterWithRsi st env account r =
      .next ⟨some (diskContent st.disk), r⟩
        (createEvs st.disk ++ [Ev.sleep 3]) none := by
  unfold iterWithRsi
  rw [h]

lemma iterWithRsi_some (st : LoopState) (env : LoopEnv) (account : Account)
    (r : Option ℚ) (sd : Side)
    (h : signal account.is_buying r st.rsi = some sd) :
    iterWithRsi st env account r =
      iterTrade st r
        (do_trade account (some (diskContent st.disk)) asset (sideStr sd)
          tradeQty env.trade) := by
  unfold iterWithRsi
  rw [h]

/-- Everything `create_account` may emit is the initial account write. -/
lemma mem_createEvs {d : Option String} {e : Ev} (h : e ∈ createEvs d) :
    e = Ev.writeAccount (serializeAccount initialAccount) := by
  cases d with
  | none => simpa [createEvs] using h
  | some s => simp [createEvs] at h

lemma subEv_ne_sleep (sym side : String) (q : ℚ) (n : Nat) :
    subEv sym side q ≠ Ev.sleep n := by
  unfold subEv
  by_cases h : side = "buy" <;> simp [h]

/-- A trace of a failed `do_trade` holds no 3-second sleep (its only
sleeps are the 1-second poll delays). -/
lemma do_trade_exn_no_sleep3 (account : Account) (disk : Option String)
    (sym side : String) (q : ℚ) (env : TradeEnv) (e : String) (st' : TState)
    (evs : List Ev) (h : do_trade account disk sym side q env = .exn e st' evs) :
    Ev.sleep 3 ∉ evs := by
  obtain ⟨_, hcase⟩ := do_trade_exn_inv account disk sym side q env e st' evs h
  rcases hcase with ⟨_, _, rfl⟩ | ⟨order, pevs, _, hfill, _, rfl⟩
  · intro hm
    simp at hm
    exact subEv_ne_sleep sym side q 3 hm.symm
  · intro hm
    rcases List.mem_cons.mp hm with hm | hm
    · exact subEv_ne_sleep sym side q 3 hm.symm
    · have hmem : Ev.sleep 3 ∈ pollEvs (awaitFill sym order.orderId order env.polls) := by
        rw [hfill]
        exact hm
      rcases awaitFill_evs sym order.orderId env.polls order _ hmem with h' | h' <;>
        simp at h'

/- ------------------------------------------------------------------
   Claims C7 and C8: undefined readings and the error path.
   ------------------------------------------------------------------ -/

/-- Claim C7, counterexample.  The claim states that with fewer than 15
samples `get_rsi` yields an undefined value (NaN).  With zero samples —
an instance of "fewer than 15" — `get_rsi` instead raises: `iloc[-1]` on
the empty frame is an out-of-bounds positional index. -/
theorem C7_counterexample :
    get_rsi ([] : List ℚ) = Except.error "IndexError" ∧
    ([] : List ℚ).length < 15 := by
  exact ⟨rfl, by decide⟩

/-- Claim C7, amended: with at least one but fewer than 15 price samples
`get_rsi` yields an undefined reading (with zero samples it raises,
which the loop catches); whenever either the current or the previous
reading is undefined no signal fires, and the loop iteration submits no
order, regardless of thresholds and account mode. -/
theorem C7_undefined_blocks_trading :
    (∀ prices : List ℚ, prices ≠ [] → prices.length < 15 →
        get_rsi prices = Except.ok none)
    ∧ (∀ (b : Bool) (o : Option ℚ),
        signal b none o = none ∧ signal b o none = none)
    ∧ (∀ (st : LoopState) (env : LoopEnv) (r : Option ℚ),
        env.rsiResp = Except.ok r → (r = none ∨ st.rsi = none) →
        ∀ e ∈ iterEvs (iteration st env), isSubmit e = false) := by
  refine ⟨get_rsi_short,
    fun b o => ⟨signal_none_left b o, signal_none_right b o⟩, ?_⟩
  intro st env r hr hund e he
  cases hacc : parseAccount (diskContent st.disk) with
  | none =>
    rw [iteration_parse_none st env hacc] at he
    simp only [iterEvs, List.mem_append, List.mem_singleton] at he
    rcases he with he | he
    · rw [mem_createEvs he]
      rfl
    · subst he
      rfl
  | some account =>
    rw [iteration_parse_some st env account hacc,
        iterWithAccount_ok st env account r hr] at he
    have hsig : signal account.is_buying r st.rsi = none := by
      rcases hund with rfl | h0
      · exact signal_none_left _ _
      · rw [h0]
        exact signal_none_right _ _
    rw [iterWithRsi_none st env account r hsig] at he
    simp only [iterEvs, List.mem_append, List.mem_singleton] at he
    rcases he with he | he
    · rw [mem_createEvs he]
      rfl
    · subst he
      rfl

/-- Witness for `C7_undefined_blocks_trading`: one lone sample gives an
undefined reading; an undefined reading in either slot fires nothing; an
iteration whose fresh reading is undefined submits no order. -/
theorem C7_undefined_blocks_trading_witness :
    get_rsi [(50 : ℚ)] = Except.ok none ∧
    (signal true none (some 50) = none ∧ signal true (some 50) none = none) ∧
    isSubmit (Ev.sleep 3) = false :=
  ⟨C7_undefined_blocks_trading.1 [(50 : ℚ)] (by simp) (by simp),
   C7_undefined_blocks_trading.2.1 true (some 50),
   C7_undefined_blocks_trading.2.2
     ⟨some (serializeAccount initialAccount), some 50⟩
     { rsiResp := Except.ok none,
       trade := { submit := Except.error "unused", polls := [] } }
     none rfl (Or.inl rfl) (Ev.sleep 3) (by decide)⟩

/-- Claim C8, counterexample.  The claim states that after an in-loop
error the loop continues after the normal 3-second sleep.  The
`time.sleep(3)` sits inside the `try`, after the point of failure, so an
iteration whose `get_rsi` raises logs the error and continues with NO
sleep at all: its whole event trace is the single error log line. -/
theorem C8_counterexample :
    iteration ⟨some (serializeAccount initialAccount), some 50⟩
        { rsiResp := Except.error "boom",
          trade := { submit := Except.error "unused", polls := [] } } =
      .next ⟨some (serializeAccount initialAccount), some 50⟩
        [Ev.logLine ("ERROR" ++ "boom")] (some "boom") ∧
    ([Ev.logLine ("ERROR" ++ "boom")]).count (Ev.sleep 3) = 0 := by
  exact ⟨by decide, by decide⟩

/-- Claim C8, amended: every exception caught in a main-loop iteration
is logged as the trace's final event, with the `"ERROR"` prefix
concatenated directly to the message (`"ERROR" + str(e)`), and the loop
continues — but WITHOUT the 3-second inter-iteration delay, which is
skipped on the error path (the only sleeps possibly present are
`do_trade`'s 1-second poll delays). -/
theorem C8_error_logged_no_sleep :
    ∀ (st : LoopState) (env : LoopEnv) (st' : LoopState) (evs : List Ev)
      (e : String),
      iteration st env = .next st' evs (some e) →
      evs.getLast? = some (Ev.logLine ("ERROR" ++ e)) ∧
      evs.count (Ev.sleep 3) = 0 := by
  intro st env st' evs e hit
  rw [List.count_eq_zero]
  cases hacc : parseAccount (diskContent st.disk) with
  | none =>
    rw [iteration_parse_none st env hacc] at hit
    cases hit
    refine ⟨List.getLast?_concat _, ?_⟩
    intro hm
    rcases List.mem_append.mp hm with hm | hm
    · have hce := mem_createEvs hm
      simp at hce
    · simp at hm
  | some account =>
    rw [iteration_parse_some st env account hacc] at hit
    cases hrsi : env.rsiResp with
    | error e2 =>
      rw [iterWithAccount_err st env account e2 hrsi] at hit
      cases hit
      refine ⟨List.getLast?_concat _, ?_⟩
      intro hm
      rcases List.mem_append.mp hm with hm | hm
      · have hce := mem_createEvs hm
        simp at hce
      · simp at hm
    | ok r =>
      rw [iterWithAccount_ok st env account r hrsi] at hit
      cases hsig : signal account.is_buying r st.rsi with
      | none =>
        rw [iterWithRsi_none st env account r hsig] at hit
        cases hit
      | some sd =>
        rw [iterWithRsi_some st env account r sd hsig] at hit
        cases htr : do_trade account (some (diskContent st.disk)) asset
            (sideStr sd) tradeQty env.trade with
        | ok st2 tevs =>
          rw [htr] at hit
          cases hit
        | exn e2 st2 tevs =>
          rw [htr] at hit
          cases hit
          constructor
          · exact List.getLast?_concat _
          · intro hm
            rcases List.mem_append.mp hm with hm | hm
            · rcases List.mem_append.mp hm with hm | hm
              · have hce := mem_createEvs hm
                simp at hce
              · exact do_trade_exn_no_sleep3 account (some (diskContent st.disk))
                  asset (sideStr sd) tradeQty env.trade _ st2 tevs htr hm
            · simp at hm
        | hang st2 tevs =>
          rw [htr] at hit
          cases hit

/-- Witness for `C8_error_logged_no_sleep` at an iteration whose RSI
fetch raises `"boom"`. -/
theorem C8_error_logged_no_sleep_witness :
    ([Ev.logLine ("ERROR" ++ "boom")]).getLast? =
      some (Ev.logLine ("ERROR" ++ "boom")) ∧
    ([Ev.logLine ("ERROR" ++ "boom")]).count (Ev.sleep 3) = 0 :=
  C8_error_logged_no_sleep
    ⟨some (serializeAccount initialAccount), some 50⟩
    { rsiResp := Except.error "boom",
      trade := { submit := Except.error "unused", polls := [] } }
    ⟨some (serializeAccount initialAccount), some 50⟩
    [Ev.logLine ("ERROR" ++ "boom")] "boom" (by decide)

/-- Witness for `C10_nonbuy_sells` at the invalid side string `"Buy"`. -/
theorem C10_nonbuy_sells_witness :
    (outcomeEvs (do_trade initialAccount (some (serializeAccount initialAccount))
        "BTCUSDT" "Buy" (1 / 1000)
        { submit := Except.ok { orderId := 7, status := "FILLED", fills := [] },
          polls := [] })).head? = some (Ev.submitSell "BTCUSDT" (1 / 1000)) ∧
    outcomeAccount (do_trade initialAccount
        (some (serializeAccount initialAccount)) "BTCUSDT" "Buy" (1 / 1000)
        { submit := Except.ok { orderId := 7, status := "FILLED", fills := [] },
          polls := [] }) =
      { initialAccount with is_buying := true } :=
  ⟨(C10_nonbuy_sells initialAccount (some (serializeAccount initialAccount))
      "BTCUSDT" "Buy" (1 / 1000)
      { submit := Except.ok { orderId := 7, status := "FILLED", fills := [] },
        polls := [] }
      (by decide)).1,
   (C10_nonbuy_sells initialAccount (some (serializeAccount initialAccount))
      "BTCUSDT" "Buy" (1 / 1000)
      { submit := Except.ok { orderId := 7, status := "FILLED", fills := [] },
        polls := [] }
      (by decide)).2
     { orderId := 7, status := "FILLED", fills := [] } rfl⟩

end RsiBot
